import Mathlib

/-!
Verification of the thumbnail-generation pipeline in syno_thumbs.py.

The file embeds, as executable Lean definitions, the program's size-policy
functions (scale_args, scale_args_video), the fallback dimension resolver
(get_media_info_ffprobe) including its text parsing, the per-file pipeline
(process_file with its inner do_thumb), the failure-marker state operations,
and the exit-status logic of main.  Theorems then settle the frozen claims
about these definitions.
-/

namespace SynoThumbs

/-! ## Size policy -/

/-- Thumbnail size constant from the source: photo SM constrains the longest
edge to 320. -/
def SIZE_SM_LONG : ℕ := 320

/-- Photo M constrains the shortest edge to 320. -/
def SIZE_M_SHORT : ℕ := 320

/-- Photo XL constrains the shortest edge to 1280. -/
def SIZE_XL_SHORT : ℕ := 1280

/-- Video SM constrains the longest edge to 427. -/
def SIZE_VIDEO_SM_LONG : ℕ := 427

/-- Python's built-in round on an exact rational: nearest integer, ties to
even (banker's rounding).  The source applies round to the true-division
result height * threshold / width, which for media-sized integers is the
exact rational value. -/
def pyRound (q : ℚ) : ℤ :=
  if q - ⌊q⌋ < 1/2 then ⌊q⌋
  else if 1/2 < q - ⌊q⌋ then ⌊q⌋ + 1
  else if ⌊q⌋ % 2 = 0 then ⌊q⌋ else ⌊q⌋ + 1

/-- The expression max(1, round(other * threshold / constrained)) used by the
source for the proportionally scaled free edge. -/
def scaled (other threshold constrained : ℕ) : ℕ :=
  (max 1 (pyRound ((other : ℚ) * threshold / constrained))).toNat

/-- Embedding of scale_args from the source: photo target size for
size_spec in "sm" | "m" | "xl" (any other string falls into the xl branch,
exactly as the trailing else does in the source). -/
def scale_args (width height : ℕ) (size_spec : String) : ℕ × ℕ :=
  if size_spec = "sm" then
    if width ≥ height then
      if width ≤ SIZE_SM_LONG then (width, height)
      else (SIZE_SM_LONG, scaled height SIZE_SM_LONG width)
    else
      if height ≤ SIZE_SM_LONG then (width, height)
      else (scaled width SIZE_SM_LONG height, SIZE_SM_LONG)
  else if size_spec = "m" then
    if width ≥ height then
      if height ≤ SIZE_M_SHORT then (width, height)
      else (scaled width SIZE_M_SHORT height, SIZE_M_SHORT)
    else
      if width ≤ SIZE_M_SHORT then (width, height)
      else (SIZE_M_SHORT, scaled height SIZE_M_SHORT width)
  else
    if width ≥ height then
      if height ≤ SIZE_XL_SHORT then (width, height)
      else (scaled width SIZE_XL_SHORT height, SIZE_XL_SHORT)
    else
      if width ≤ SIZE_XL_SHORT then (width, height)
      else (SIZE_XL_SHORT, scaled height SIZE_XL_SHORT width)

/-- Embedding of scale_args_video from the source: video SM constrains the
longest edge to 427, video M the longest edge to 640 (local long_edge), and
the trailing else (xl and anything else) returns the source size. -/
def scale_args_video (width height : ℕ) (size_spec : String) : ℕ × ℕ :=
  if size_spec = "sm" then
    if width ≥ height then
      if width ≤ SIZE_VIDEO_SM_LONG then (width, height)
      else (SIZE_VIDEO_SM_LONG, scaled height SIZE_VIDEO_SM_LONG width)
    else
      if height ≤ SIZE_VIDEO_SM_LONG then (width, height)
      else (scaled width SIZE_VIDEO_SM_LONG height, SIZE_VIDEO_SM_LONG)
  else if size_spec = "m" then
    let long_edge : ℕ := 640
    if width ≥ height then
      if width ≤ long_edge then (width, height)
      else (long_edge, scaled height long_edge width)
    else
      if height ≤ long_edge then (width, height)
      else (scaled width long_edge height, long_edge)
  else
    (width, height)

/-- The shape shared by the longest-edge-constrained branches of the source
(photo sm, video sm, video m), abstracted over the threshold. -/
def longConstr (t w h : ℕ) : ℕ × ℕ :=
  if w ≥ h then
    if w ≤ t then (w, h) else (t, scaled h t w)
  else
    if h ≤ t then (w, h) else (scaled w t h, t)

/-- The shape shared by the shortest-edge-constrained branches of the source
(photo m, photo xl), abstracted over the threshold. -/
def shortConstr (t w h : ℕ) : ℕ × ℕ :=
  if w ≥ h then
    if h ≤ t then (w, h) else (scaled w t h, t)
  else
    if w ≤ t then (w, h) else (t, scaled h t w)

lemma scale_args_sm (w h : ℕ) : scale_args w h "sm" = longConstr SIZE_SM_LONG w h := rfl

lemma scale_args_m (w h : ℕ) : scale_args w h "m" = shortConstr SIZE_M_SHORT w h := rfl

lemma scale_args_other (w h : ℕ) {s : String} (h1 : s ≠ "sm") (h2 : s ≠ "m") :
    scale_args w h s = shortConstr SIZE_XL_SHORT w h := by
  unfold scale_args shortConstr
  rw [if_neg h1, if_neg h2]

lemma scale_args_video_sm (w h : ℕ) :
    scale_args_video w h "sm" = longConstr SIZE_VIDEO_SM_LONG w h := rfl

lemma scale_args_video_m (w h : ℕ) :
    scale_args_video w h "m" = longConstr 640 w h := rfl

lemma scale_args_video_other (w h : ℕ) {s : String} (h1 : s ≠ "sm") (h2 : s ≠ "m") :
    scale_args_video w h s = (w, h) := by
  unfold scale_args_video
  rw [if_neg h1, if_neg h2]

/-! ### Rounding lemmas -/

lemma pyRound_le_of_le {q : ℚ} {n : ℤ} (h : q ≤ (n : ℚ)) : pyRound q ≤ n := by
  have hf : ⌊q⌋ ≤ n := by
    have h2 := Int.floor_le_floor h
    rwa [Int.floor_intCast] at h2
  have hfl : (⌊q⌋ : ℚ) ≤ q := Int.floor_le q
  unfold pyRound
  split_ifs with h1 h2 h3
  · exact hf
  · have hlt : (⌊q⌋ : ℚ) + 1/2 < q := by linarith
    have : (⌊q⌋ : ℚ) < (n : ℚ) := by linarith
    have : ⌊q⌋ < n := by exact_mod_cast this
    omega
  · exact hf
  · have hle : (⌊q⌋ : ℚ) + 1/2 ≤ q := by
      have := not_lt.mp h1
      linarith
    have : (⌊q⌋ : ℚ) < (n : ℚ) := by linarith
    have : ⌊q⌋ < n := by exact_mod_cast this
    omega

lemma le_pyRound_of_le {q : ℚ} {n : ℤ} (h : (n : ℚ) ≤ q) : n ≤ pyRound q := by
  have hf : n ≤ ⌊q⌋ := Int.le_floor.mpr h
  unfold pyRound
  split_ifs <;> omega

lemma abs_pyRound_sub (q : ℚ) : |(pyRound q : ℚ) - q| ≤ 1/2 := by
  have h1 : (⌊q⌋ : ℚ) ≤ q := Int.floor_le q
  have h2 : q < ⌊q⌋ + 1 := Int.lt_floor_add_one q
  unfold pyRound
  split_ifs with ha hb hc
  · rw [abs_le]
    constructor <;> [linarith; linarith]
  · rw [abs_le]
    push_cast
    constructor <;> [linarith; linarith]
  · have hq : q - ⌊q⌋ = 1/2 := le_antisymm (not_lt.mp hb) (not_lt.mp ha)
    rw [abs_le]
    constructor <;> [linarith; linarith]
  · have hq : q - ⌊q⌋ = 1/2 := le_antisymm (not_lt.mp hb) (not_lt.mp ha)
    rw [abs_le]
    push_cast
    constructor <;> [linarith; linarith]

/-! ### Lemmas about the scaled free edge -/

lemma scaled_le {a t c m : ℕ} (hc : 0 < c) (hm : 1 ≤ m) (h : a * t ≤ m * c) :
    scaled a t c ≤ m := by
  have hc' : (0 : ℚ) < c := by exact_mod_cast hc
  have hq : (a : ℚ) * t / c ≤ ((m : ℤ) : ℚ) := by
    rw [div_le_iff hc']
    push_cast
    exact_mod_cast h
  have hp := pyRound_le_of_le hq
  have hmax : max 1 (pyRound ((a : ℚ) * t / c)) ≤ (m : ℤ) :=
    max_le (by exact_mod_cast hm) hp
  unfold scaled
  exact Int.toNat_le.mpr hmax

lemma le_scaled {a t c m : ℕ} (hc : 0 < c) (h : m * c ≤ a * t) :
    m ≤ scaled a t c := by
  have hc' : (0 : ℚ) < c := by exact_mod_cast hc
  have hq : ((m : ℤ) : ℚ) ≤ (a : ℚ) * t / c := by
    rw [le_div_iff hc']
    push_cast
    exact_mod_cast h
  have hp := le_pyRound_of_le hq
  have h0 : (0 : ℤ) ≤ max 1 (pyRound ((a : ℚ) * t / c)) :=
    le_trans zero_le_one (le_max_left _ _)
  unfold scaled
  exact (Int.le_toNat h0).mpr (le_trans hp (le_max_right _ _))

lemma one_le_scaled (a t c : ℕ) : 1 ≤ scaled a t c := by
  have h0 : (0 : ℤ) ≤ max 1 (pyRound ((a : ℚ) * t / c)) :=
    le_trans zero_le_one (le_max_left _ _)
  unfold scaled
  exact (Int.le_toNat h0).mpr (by exact_mod_cast le_max_left 1 _)

/-- Written from the spec's words, for comparison with the code: r is the
proportionally scaled value rounded to a nearest integer with a floor of 1,
for free edge other, threshold, and constrained source edge. -/
def NearestScaledSpec (other threshold constrained r : ℕ) : Prop :=
  ∃ s : ℤ, |(s : ℚ) - (other : ℚ) * threshold / constrained| ≤ 1/2 ∧
    (r : ℤ) = max 1 s

lemma scaled_nearest (a t c : ℕ) : NearestScaledSpec a t c (scaled a t c) := by
  refine ⟨pyRound ((a : ℚ) * t / c), abs_pyRound_sub _, ?_⟩
  unfold scaled
  rw [Int.toNat_of_nonneg (le_trans zero_le_one (le_max_left _ _))]

/-- Written from the spec's words: the rule for one size-class variant.  If
the constrained edge (longest or shortest per edgeIsLong) is at or below the
threshold the source size is returned unchanged; otherwise the constrained
edge of the result equals the threshold and the other edge is the
proportionally scaled, nearest-rounded value floored at 1. -/
def RuleSpec (edgeIsLong : Bool) (t w h : ℕ) (r : ℕ × ℕ) : Prop :=
  if (if edgeIsLong then max w h else min w h) ≤ t then r = (w, h)
  else
    if edgeIsLong then
      if w ≥ h then r.1 = t ∧ NearestScaledSpec (min w h) t (max w h) r.2
      else r.2 = t ∧ NearestScaledSpec (min w h) t (max w h) r.1
    else
      if w ≥ h then r.2 = t ∧ NearestScaledSpec (max w h) t (min w h) r.1
      else r.1 = t ∧ NearestScaledSpec (max w h) t (min w h) r.2

lemma longConstr_rule (t w h : ℕ) : RuleSpec true t w h (longConstr t w h) := by
  unfold RuleSpec longConstr
  by_cases hwh : w ≥ h
  · have hmax : max w h = w := max_eq_left hwh
    have hmin : min w h = h := min_eq_right hwh
    by_cases hwt : w ≤ t
    · simp [hmax, hmin, hwh, hwt]
    · simp only [hmax, hmin, if_pos hwh, if_neg hwt, if_pos rfl, ite_true]
      exact ⟨by trivial, scaled_nearest h t w⟩
  · have hle : w ≤ h := le_of_not_le hwh
    have hmax : max w h = h := max_eq_right hle
    have hmin : min w h = w := min_eq_left hle
    by_cases hht : h ≤ t
    · simp [hmax, hmin, hwh, hht]
    · simp only [hmax, hmin, if_neg hwh, if_neg hht, if_pos rfl, ite_true]
      exact ⟨by trivial, scaled_nearest w t h⟩

lemma shortConstr_rule (t w h : ℕ) : RuleSpec false t w h (shortConstr t w h) := by
  unfold RuleSpec shortConstr
  by_cases hwh : w ≥ h
  · have hmax : max w h = w := max_eq_left hwh
    have hmin : min w h = h := min_eq_right hwh
    by_cases hht : h ≤ t
    · simp [hmax, hmin, hwh, hht]
    · simp only [hmax, hmin, if_pos hwh, if_neg hht, Bool.false_eq_true, ite_false]
      exact ⟨by trivial, scaled_nearest w t h⟩
  · have hle : w ≤ h := le_of_not_le hwh
    have hmax : max w h = h := max_eq_right hle
    have hmin : min w h = w := min_eq_left hle
    by_cases hwt : w ≤ t
    · simp [hmax, hmin, hwh, hwt]
    · simp only [hmax, hmin, if_neg hwh, if_neg hwt, Bool.false_eq_true, ite_false]
      exact ⟨by trivial, scaled_nearest h t w⟩

lemma longConstr_idem (t w h : ℕ) (hw : 0 < w) (hh : 0 < h) (ht : 1 ≤ t) :
    longConstr t (longConstr t w h).1 (longConstr t w h).2 = longConstr t w h := by
  unfold longConstr
  by_cases hwh : w ≥ h
  · by_cases hwt : w ≤ t
    · simp [hwh, hwt]
    · have hsc : scaled h t w ≤ t :=
        scaled_le hw ht (by rw [Nat.mul_comm t w]; exact Nat.mul_le_mul_right t hwh)
      simp only [if_pos hwh, if_neg hwt]
      split_ifs <;> first | rfl | omega
  · have hle : w ≤ h := le_of_not_le hwh
    by_cases hht : h ≤ t
    · simp [hwh, hht]
    · have hsc : scaled w t h ≤ t :=
        scaled_le hh ht (by rw [Nat.mul_comm t h]; exact Nat.mul_le_mul_right t hle)
      simp only [if_neg hwh, if_neg hht]
      split_ifs <;> first | rfl | omega

lemma shortConstr_idem (t w h : ℕ) (hw : 0 < w) (hh : 0 < h) :
    shortConstr t (shortConstr t w h).1 (shortConstr t w h).2 = shortConstr t w h := by
  unfold shortConstr
  by_cases hwh : w ≥ h
  · by_cases hht : h ≤ t
    · simp [hwh, hht]
    · have hsc : t ≤ scaled w t h := by
        refine le_scaled hh ?_
        calc t * h = h * t := Nat.mul_comm t h
        _ ≤ w * t := Nat.mul_le_mul_right t hwh
      simp only [if_pos hwh, if_neg hht]
      split_ifs <;> first | rfl | omega
  · have hle : w ≤ h := le_of_not_le hwh
    by_cases hwt : w ≤ t
    · simp [hwh, hwt]
    · have hsc : t ≤ scaled h t w := by
        refine le_scaled hw ?_
        calc t * w = w * t := Nat.mul_comm t w
        _ ≤ h * t := Nat.mul_le_mul_right t hle
      simp only [if_neg hwh, if_neg hwt]
      split_ifs <;> first | rfl | omega

lemma longConstr_le (t w h : ℕ) (hw : 0 < w) (hh : 0 < h) :
    (longConstr t w h).1 ≤ w ∧ (longConstr t w h).2 ≤ h := by
  unfold longConstr
  split_ifs with h1 h2 h3
  · exact ⟨le_refl w, le_refl h⟩
  · have htw : t ≤ w := le_of_lt (lt_of_not_le h2)
    refine ⟨htw, scaled_le hw hh (Nat.mul_le_mul_left h htw)⟩
  · exact ⟨le_refl w, le_refl h⟩
  · have hth : t ≤ h := le_of_lt (lt_of_not_le h3)
    refine ⟨scaled_le hh hw (Nat.mul_le_mul_left w hth), hth⟩

lemma shortConstr_le (t w h : ℕ) (hw : 0 < w) (hh : 0 < h) :
    (shortConstr t w h).1 ≤ w ∧ (shortConstr t w h).2 ≤ h := by
  unfold shortConstr
  split_ifs with h1 h2 h3
  · exact ⟨le_refl w, le_refl h⟩
  · have hth : t ≤ h := le_of_lt (lt_of_not_le h2)
    refine ⟨scaled_le hh hw (Nat.mul_le_mul_left w hth), hth⟩
  · exact ⟨le_refl w, le_refl h⟩
  · have htw : t ≤ w := le_of_lt (lt_of_not_le h3)
    refine ⟨htw, scaled_le hw hh (Nat.mul_le_mul_left h htw)⟩

/-! ## Collaborator processes and Python text primitives

The resolver invokes four external tools through subprocess.run.  A run
either raises FileNotFoundError (tool missing), raises TimeoutExpired, or
completes with a return code, stdout and stderr.  Python-level parsing
primitives (strip, splitlines, int, isdigit, str.split, the two regular
expressions) are embedded below over lists of characters. -/

/-- Outcome of one subprocess.run call. -/
inductive ProcResult where
  | fileNotFound : ProcResult
  | timeout : ProcResult
  | completed (returncode : ℤ) (stdout stderr : String) : ProcResult
deriving DecidableEq

/-- Python exceptions that escape the code under study. -/
inductive PyErr where
  | indexError : PyErr
  | fileNotFoundError : PyErr
deriving DecidableEq

/-- Python str whitespace as used by strip and the regex class \s. -/
def isPySpace (c : Char) : Bool :=
  c = ' ' || c = '\t' || c = '\n' || c = '\r' || c = '\x0B' || c = '\x0C'

/-- Python str.strip over a character list. -/
def stripChars (l : List Char) : List Char :=
  ((l.dropWhile isPySpace).reverse.dropWhile isPySpace).reverse

/-- Python str.splitlines: split on \n, \r\n and \r; a trailing terminator
produces no trailing empty line. -/
def splitlinesGo : List Char → List Char → List (List Char)
  | [], acc => if acc.isEmpty then [] else [acc.reverse]
  | '\r' :: '\n' :: rest, acc => acc.reverse :: splitlinesGo rest []
  | '\r' :: rest, acc => acc.reverse :: splitlinesGo rest []
  | '\n' :: rest, acc => acc.reverse :: splitlinesGo rest []
  | c :: rest, acc => splitlinesGo rest (c :: acc)

def pySplitlines (l : List Char) : List (List Char) := splitlinesGo l []

/-- Digit run to a number (the strings fed to it are all-ASCII-digit). -/
def digitsToNat (l : List Char) : ℕ :=
  l.foldl (fun a c => a * 10 + (c.toNat - 48)) 0

/-- Tail of Python int() digit parsing: digits with single underscores
allowed between digits. -/
def parseIntCore (acc : ℕ) : List Char → Option ℕ
  | [] => some acc
  | '_' :: c :: rest =>
      if c.isDigit then parseIntCore (acc * 10 + (c.toNat - 48)) rest else none
  | ['_'] => none
  | c :: rest =>
      if c.isDigit then parseIntCore (acc * 10 + (c.toNat - 48)) rest else none

/-- Unsigned part of Python int(): at least one digit. -/
def parseUnsigned : List Char → Option ℕ
  | [] => none
  | c :: rest => if c.isDigit then parseIntCore (c.toNat - 48) rest else none

/-- Python int(str): strip whitespace, optional sign, digits (ASCII model);
none models a raised ValueError. -/
def pyInt (s : String) : Option ℤ :=
  match stripChars s.data with
  | '-' :: rest => (parseUnsigned rest).map (fun n => -(n : ℤ))
  | '+' :: rest => (parseUnsigned rest).map (fun n => (n : ℤ))
  | l => (parseUnsigned l).map (fun n => (n : ℤ))

/-- Python str.isdigit on the ASCII fragment. -/
def pyIsdigit (l : List Char) : Bool :=
  !l.isEmpty && l.all Char.isDigit

/-- Python str.split(sep) with one-character separator, all occurrences. -/
def splitAllGo (sep : Char) (acc : List Char) : List Char → List (List Char)
  | [] => [acc.reverse]
  | c :: rest =>
      if c = sep then acc.reverse :: splitAllGo sep [] rest
      else splitAllGo sep (c :: acc) rest

def splitAll (sep : Char) (l : List Char) : List (List Char) := splitAllGo sep [] l

/-- Python line.split(",", 1) when a comma is present: the text before the
first comma and everything after it. -/
def splitOnceGo (acc : List Char) : List Char → List Char × List Char
  | [] => (acc.reverse, [])
  | c :: rest => if c = ',' then (acc.reverse, rest) else splitOnceGo (c :: acc) rest

def splitOnce (l : List Char) : List Char × List Char := splitOnceGo [] l

/-- Whether pat occurs as a leading run of l. -/
def startsWith : List Char → List Char → Bool
  | [], _ => true
  | _ :: _, [] => false
  | p :: ps, c :: cs => p = c && startsWith ps cs

/-- Python "pat in line" substring containment. -/
def containsSub (pat : List Char) : List Char → Bool
  | [] => startsWith pat []
  | l@(_ :: rest) => startsWith pat l || containsSub pat rest

/-! ### The two regular expressions of the source

re.search never benefits from backtracking a greedy digit group here: after
giving back a digit the pattern would have to match that digit against
whitespace-star followed by a literal x, which fails.  So at each start
position the match attempt is the deterministic maximal-run scan below, and
search tries positions left to right. -/

/-- Match attempt at one position for the heif-info pattern
size:\s*(\d+)\s*x\s*(\d+), applied to the lowercased line. -/
def matchHeifAt (l : List Char) : Option (ℕ × ℕ) :=
  if startsWith ['s', 'i', 'z', 'e', ':'] l then
    let r1 := (l.drop 5).dropWhile isPySpace
    let d1 := r1.takeWhile Char.isDigit
    if d1.isEmpty then none
    else
      match (r1.dropWhile Char.isDigit).dropWhile isPySpace with
      | 'x' :: r3 =>
          let d2 := (r3.dropWhile isPySpace).takeWhile Char.isDigit
          if d2.isEmpty then none else some (digitsToNat d1, digitsToNat d2)
      | _ => none
  else none

/-- Leftmost search for the heif-info size pattern. -/
def reSearchHeif : List Char → Option (ℕ × ℕ)
  | [] => none
  | l@(_ :: rest) =>
      match matchHeifAt l with
      | some r => some r
      | none => reSearchHeif rest

/-- Match attempt at one position for the ffmpeg stderr pattern
(\d{2,})\s*x\s*(\d{2,}). -/
def matchVidAt (l : List Char) : Option (ℕ × ℕ) :=
  let d1 := l.takeWhile Char.isDigit
  if d1.length < 2 then none
  else
    match (l.dropWhile Char.isDigit).dropWhile isPySpace with
    | 'x' :: r2 =>
        let d2 := (r2.dropWhile isPySpace).takeWhile Char.isDigit
        if d2.length < 2 then none else some (digitsToNat d1, digitsToNat d2)
    | _ => none

/-- Leftmost search for the WxH pattern. -/
def reSearchVid : List Char → Option (ℕ × ℕ)
  | [] => none
  | l@(_ :: rest) =>
      match matchVidAt l with
      | some r => some r
      | none => reSearchVid rest

/-! ## The four probing strategies of get_media_info_ffprobe -/

/-- Strategy 1: ImageMagick identify -format "%w,%h".  All of its failure
modes (exception caught by the except clause, non-zero exit, unparseable or
non-positive output) end as none, falling through to the next strategy. -/
def parseIdentify (r : ProcResult) : Option (ℤ × ℤ) :=
  match r with
  | .completed rc out _ =>
      if rc = 0 then
        let line := stripChars out.data
        if !line.isEmpty && line.contains ',' then
          match pyInt (String.mk (splitOnce line).1), pyInt (String.mk (splitOnce line).2) with
          | some w, some h => if w > 0 ∧ h > 0 then some (w, h) else none
          | _, _ => none
        else none
      else none
  | _ => none

/-- Lines loop of strategy 2: first line whose lowercased text matches the
size pattern with both values positive; a non-positive match keeps looking
at later lines. -/
def heifLinesLoop : List (List Char) → Option (ℤ × ℤ)
  | [] => none
  | line :: rest =>
      match reSearchHeif (line.map Char.toLower) with
      | some (w, h) =>
          if (w : ℤ) > 0 ∧ (h : ℤ) > 0 then some ((w : ℤ), (h : ℤ))
          else heifLinesLoop rest
      | none => heifLinesLoop rest

/-- Strategy 2: heif-info, scanning stdout lines for "size: W x H". -/
def parseHeif (r : ProcResult) : Option (ℤ × ℤ) :=
  match r with
  | .completed rc out _ =>
      if rc = 0 then heifLinesLoop (pySplitlines out.data) else none
  | _ => none

/-- One conditional expression of the ffprobe strategy:
int(parts[i]) if len(parts) > i and parts[i].strip().isdigit() else None. -/
def ffprobeField (parts : List (List Char)) (i : ℕ) : Option ℤ :=
  match parts.get? i with
  | some p =>
      if pyIsdigit (stripChars p) then some ((digitsToNat (stripChars p) : ℕ) : ℤ)
      else none
  | none => none

/-- Strategy 3: ffprobe -show_entries stream=width,height -of csv=p=0.  The
source indexes (stdout or "").strip().splitlines()[0]; on empty stripped
output this raises IndexError, which the surrounding except clause
(TimeoutExpired, FileNotFoundError, ValueError) does not catch. -/
def parseFfprobe (r : ProcResult) : Except PyErr (Option (ℤ × ℤ)) :=
  match r with
  | .completed rc out _ =>
      if rc = 0 then
        match pySplitlines (stripChars out.data) with
        | [] => .error .indexError
        | line :: _ =>
            if !line.isEmpty then
              match ffprobeField (splitAll ',' line) 0, ffprobeField (splitAll ',' line) 1 with
              | some wv, some hv =>
                  if wv ≠ 0 ∧ hv ≠ 0 then .ok (some (wv, hv)) else .ok none
              | _, _ => .ok none
            else .ok none
      else .ok none
  | _ => .ok none

/-- Lines loop of strategy 4: only the first line containing "Video:" or
"video:" is examined; whether or not it yields a usable match, the loop
breaks there. -/
def ffmpegLinesLoop : List (List Char) → Option (ℤ × ℤ)
  | [] => none
  | line :: rest =>
      if containsSub "Video:".data line || containsSub "video:".data line then
        match reSearchVid line with
        | some (w, h) =>
            if (w : ℤ) > 0 ∧ (h : ℤ) > 0 then some ((w : ℤ), (h : ℤ)) else none
        | none => none
      else ffmpegLinesLoop rest

/-- Strategy 4: parse the WxH token from ffmpeg -i output; stderr and stdout
are concatenated and the return code is ignored. -/
def parseFfmpeg (r : ProcResult) : Option (ℤ × ℤ) :=
  match r with
  | .completed _ out err =>
      ffmpegLinesLoop (pySplitlines (err.data ++ out.data))
  | _ => none

/-- Embedding of get_media_info_ffprobe: the four strategies in source
order (identify, heif-info, ffprobe, ffmpeg -i), each consulted only if the
previous ones produced nothing; the ffprobe strategy can raise. -/
def get_media_info_ffprobe (r1 r2 r3 r4 : ProcResult) :
    Except PyErr (Option (ℤ × ℤ)) :=
  match parseIdentify r1 with
  | some d => .ok (some d)
  | none =>
      match parseHeif r2 with
      | some d => .ok (some d)
      | none =>
          match parseFfprobe r3 with
          | .error e => .error e
          | .ok (some d) => .ok (some d)
          | .ok none => .ok (parseFfmpeg r4)

/-- Number of strategy invocations performed by one resolver run. -/
def probeCount (r1 r2 r3 _r4 : ProcResult) : ℕ :=
  match parseIdentify r1 with
  | some _ => 1
  | none =>
      match parseHeif r2 with
      | some _ => 2
      | none =>
          match parseFfprobe r3 with
          | .ok none => 4
          | _ => 3

/-! ## Failure-marker state (the @eaDir per-file subdirectory)

do_thumb records per-size outcomes through two path operations:
fail_path.unlink(missing_ok=True) after a success and fail_path.touch()
after a failure.  They are modelled both as a keyed marker store (for the
marker invariant) and inside the per-file SubState used by process_file. -/

/-- Marker store: presence of SYNOPHOTO_THUMB_{class}.fail per
(subdirectory, size class). -/
def MarkerStore : Type := String × String → Bool

/-- pathlib Path.unlink semantics on one marker: removing an absent file
raises FileNotFoundError unless missing_ok is set. -/
def unlinkMarker (missing_ok : Bool) (st : MarkerStore) (d c : String) :
    Except PyErr MarkerStore :=
  if st (d, c) then .ok (fun x => if x = (d, c) then false else st x)
  else if missing_ok then .ok st
  else .error .fileNotFoundError

/-- pathlib Path.touch semantics on one marker: create if absent, succeed
if already present. -/
def touchMarker (st : MarkerStore) (d c : String) : MarkerStore :=
  fun x => if x = (d, c) then true else st x

/-- The success recording of do_thumb: fail_path.unlink(missing_ok=True). -/
def record_success (st : MarkerStore) (d c : String) : Except PyErr MarkerStore :=
  unlinkMarker true st d c

/-- The failure recording of do_thumb: fail_path.touch(). -/
def record_failure (st : MarkerStore) (d c : String) : MarkerStore :=
  touchMarker st d c

/-- An abstract recording operation on the marker store. -/
inductive MOp where
  | success (d c : String) : MOp
  | failure (d c : String) : MOp

/-- Effect of one recording operation on the store. -/
def applyOp (st : MarkerStore) : MOp → MarkerStore
  | .success d c => fun x => if x = (d, c) then false else st x
  | .failure d c => touchMarker st d c

/-- Effect of a sequence of recording operations. -/
def runOps (st : MarkerStore) (ops : List MOp) : MarkerStore :=
  ops.foldl applyOp st

/-! ## The per-file pipeline: process_file with its inner do_thumb -/

/-- Media extension allow-lists from the source. -/
def PHOTO_EXTS : List String :=
  [".jpg", ".jpeg", ".png", ".heic", ".gif", ".bmp", ".tiff", ".tif"]

def VIDEO_EXTS : List String :=
  [".mov", ".mp4", ".avi", ".mkv", ".m4v", ".webm", ".wmv"]

/-- On-disk state of one per-file @eaDir subdirectory: the three size-class
thumbnail artifacts and the three failure markers. -/
structure SubState where
  thumbSM : Bool
  thumbM : Bool
  thumbXL : Bool
  failSM : Bool
  failM : Bool
  failXL : Bool
deriving DecidableEq

def getThumb (st : SubState) (sfx : String) : Bool :=
  if sfx = "SM" then st.thumbSM else if sfx = "M" then st.thumbM else st.thumbXL

def setThumb (st : SubState) (sfx : String) : SubState :=
  if sfx = "SM" then { st with thumbSM := true }
  else if sfx = "M" then { st with thumbM := true }
  else { st with thumbXL := true }

def clearFail (st : SubState) (sfx : String) : SubState :=
  if sfx = "SM" then { st with failSM := false }
  else if sfx = "M" then { st with failM := false }
  else { st with failXL := false }

def setFail (st : SubState) (sfx : String) : SubState :=
  if sfx = "SM" then { st with failSM := true }
  else if sfx = "M" then { st with failM := true }
  else { st with failXL := true }

/-- Collaborator behaviour for one process_file call: the four probe
outcomes and, for each size suffix and computed target size, whether the
external encode invocation succeeds (run_ffmpeg_thumb's combined exit-code
and output-file test). -/
structure Env where
  probe1 : ProcResult
  probe2 : ProcResult
  probe3 : ProcResult
  probe4 : ProcResult
  encodeOk : String → ℕ × ℕ → Bool

/-- Embedding of the inner do_thumb closure.  Returns the per-size boolean,
the updated subdirectory state, and how many encode invocations were
performed (0 on the exists-already fast path, 1 otherwise). -/
def do_thumb (force is_video : Bool) (w h : ℕ) (st : SubState)
    (enc : String → ℕ × ℕ → Bool) (sfx spec : String) : Bool × SubState × ℕ :=
  let tw_th := if is_video then scale_args_video w h spec else scale_args w h spec
  if !force && getThumb st sfx then
    (true, clearFail st sfx, 0)
  else
    if enc sfx tw_th then (true, setThumb (clearFail st sfx) sfx, 1)
    else (false, setFail st sfx, 1)

/-- Embedding of process_file.  Inputs: the file's extension (suffix with
dot, as media_path.suffix), the dry_run and force flags, the current
subdirectory state, and the collaborator environment.  Output: the returned
boolean, the new subdirectory state, and the numbers of probing and encode
invocations; an uncaught Python exception from the resolver propagates as
Except.error. -/
def process_file (ext : String) (dry_run force : Bool) (st : SubState)
    (env : Env) : Except PyErr (Bool × SubState × ℕ × ℕ) :=
  let extLower := String.mk (ext.data.map Char.toLower)
  let is_video := VIDEO_EXTS.contains extLower
  let is_photo := PHOTO_EXTS.contains extLower
  if !is_photo && !is_video then .ok (true, st, 0, 0)
  else if dry_run then .ok (true, st, 0, 0)
  else if !force && (st.thumbSM && st.thumbM && st.thumbXL) then .ok (true, st, 0, 0)
  else
    match get_media_info_ffprobe env.probe1 env.probe2 env.probe3 env.probe4 with
    | .error e => .error e
    | .ok none =>
        .ok (false, st, probeCount env.probe1 env.probe2 env.probe3 env.probe4, 0)
    | .ok (some (w, h)) =>
        if w ≤ 0 ∨ h ≤ 0 then
          .ok (false, st, probeCount env.probe1 env.probe2 env.probe3 env.probe4, 0)
        else
          let r1 := do_thumb force is_video w.toNat h.toNat st env.encodeOk "SM" "sm"
          let r2 := do_thumb force is_video w.toNat h.toNat r1.2.1 env.encodeOk "M" "m"
          let r3 := do_thumb force is_video w.toNat h.toNat r2.2.1 env.encodeOk "XL" "xl"
          .ok (true, r3.2.1,
            probeCount env.probe1 env.probe2 env.probe3 env.probe4,
            r1.2.2 + r2.2.2 + r3.2.2)

/-! ## Exit status of main -/

/-- The per-file loop of main seen through its process_file calls: each
entry is one call's outcome, of the same shape process_file delivers
(a boolean, discarded, or an uncaught Python exception).  The loop has no
try/except, so the first exception propagates out of main and the
interpreter exits with status 1; boolean results are discarded. -/
def mainLoop : List (Except PyErr Bool) → ℕ
  | [] => 0
  | .error _ :: _ => 1
  | .ok _ :: rest => mainLoop rest

/-- Embedding of main's exit-status logic: argument-directory check, then
the ffmpeg -version toolchain check, then the per-file loop, then return
0.  A per-file uncaught exception aborts the run non-zero through
mainLoop. -/
def mainExit (dirIsDir toolchainOk : Bool)
    (fileResults : List (Except PyErr Bool)) : ℕ :=
  if !dirIsDir then 1
  else if !toolchainOk then 1
  else mainLoop fileResults

/-! ## Resolver lemmas -/

lemma parseIdentify_pos {r : ProcResult} {w h : ℤ}
    (hp : parseIdentify r = some (w, h)) : 0 < w ∧ 0 < h := by
  cases r with
  | fileNotFound => simp [parseIdentify] at hp
  | timeout => simp [parseIdentify] at hp
  | completed rc out err =>
      simp only [parseIdentify] at hp
      repeat' split at hp
      all_goals simp_all

lemma heifLinesLoop_pos (ls : List (List Char)) {w h : ℤ}
    (hp : heifLinesLoop ls = some (w, h)) : 0 < w ∧ 0 < h := by
  induction ls with
  | nil => simp [heifLinesLoop] at hp
  | cons line rest ih =>
      simp only [heifLinesLoop] at hp
      split at hp
      · split at hp
        · simp_all
          omega
        · exact ih hp
      · exact ih hp

lemma parseHeif_pos {r : ProcResult} {w h : ℤ}
    (hp : parseHeif r = some (w, h)) : 0 < w ∧ 0 < h := by
  cases r with
  | fileNotFound => simp [parseHeif] at hp
  | timeout => simp [parseHeif] at hp
  | completed rc out err =>
      simp only [parseHeif] at hp
      split at hp
      · exact heifLinesLoop_pos _ hp
      · simp at hp

lemma ffprobeField_nonneg {parts : List (List Char)} {i : ℕ} {v : ℤ}
    (h : ffprobeField parts i = some v) : 0 ≤ v := by
  unfold ffprobeField at h
  split at h
  · split at h
    · simp only [Option.some.injEq] at h
      subst h
      exact Int.natCast_nonneg _
    · simp at h
  · simp at h

lemma parseFfprobe_pos {r : ProcResult} {w h : ℤ}
    (hp : parseFfprobe r = .ok (some (w, h))) : 0 < w ∧ 0 < h := by
  cases r with
  | fileNotFound => simp [parseFfprobe] at hp
  | timeout => simp [parseFfprobe] at hp
  | completed rc out err =>
      simp only [parseFfprobe] at hp
      repeat' split at hp
      all_goals simp only [Except.ok.injEq, Option.some.injEq, Prod.mk.injEq,
        reduceCtorEq] at hp
      case _ wv hv hw hh hne =>
        obtain ⟨hw0, hh0⟩ := hp
        subst hw0; subst hh0
        have h1 := ffprobeField_nonneg hw
        have h2 := ffprobeField_nonneg hh
        omega

lemma ffmpegLinesLoop_pos (ls : List (List Char)) {w h : ℤ}
    (hp : ffmpegLinesLoop ls = some (w, h)) : 0 < w ∧ 0 < h := by
  induction ls with
  | nil => simp [ffmpegLinesLoop] at hp
  | cons line rest ih =>
      simp only [ffmpegLinesLoop] at hp
      split at hp
      · split at hp
        · split at hp
          · simp_all
            omega
          · simp at hp
        · simp at hp
      · exact ih hp

lemma parseFfmpeg_pos {r : ProcResult} {w h : ℤ}
    (hp : parseFfmpeg r = some (w, h)) : 0 < w ∧ 0 < h := by
  cases r with
  | fileNotFound => simp [parseFfmpeg] at hp
  | timeout => simp [parseFfmpeg] at hp
  | completed rc out err => exact ffmpegLinesLoop_pos _ hp

lemma get_media_info_pos {r1 r2 r3 r4 : ProcResult} {w h : ℤ}
    (hp : get_media_info_ffprobe r1 r2 r3 r4 = .ok (some (w, h))) :
    0 < w ∧ 0 < h := by
  unfold get_media_info_ffprobe at hp
  cases h1 : parseIdentify r1 with
  | some d =>
      rw [h1] at hp
      simp only [Except.ok.injEq, Option.some.injEq] at hp
      exact parseIdentify_pos (hp ▸ h1)
  | none =>
      rw [h1] at hp
      cases h2 : parseHeif r2 with
      | some d =>
          rw [h2] at hp
          simp only [Except.ok.injEq, Option.some.injEq] at hp
          exact parseHeif_pos (hp ▸ h2)
      | none =>
          rw [h2] at hp
          cases h3 : parseFfprobe r3 with
          | error e => rw [h3] at hp; simp at hp
          | ok o =>
              rw [h3] at hp
              cases o with
              | some d =>
                  simp only [Except.ok.injEq, Option.some.injEq] at hp
                  exact parseFfprobe_pos (hp ▸ h3)
              | none =>
                  simp only [Except.ok.injEq] at hp
                  exact parseFfmpeg_pos hp

/-! ## Pipeline lemmas -/

lemma bor_true_band_not {a b : Bool} (h : (a || b) = true) : (!a && !b) = false := by
  cases a <;> cases b <;> simp_all

/-- Evaluation of process_file when dry_run is off, the extension test
passes, and the fast path does not apply: control reaches the resolver. -/
lemma process_file_run (ext : String) (force : Bool) (st : SubState) (env : Env)
    (hnot : (!PHOTO_EXTS.contains (String.mk (ext.data.map Char.toLower)) &&
      !VIDEO_EXTS.contains (String.mk (ext.data.map Char.toLower))) = false)
    (hfast : (!force && (st.thumbSM && st.thumbM && st.thumbXL)) = false) :
    process_file ext false force st env =
      match get_media_info_ffprobe env.probe1 env.probe2 env.probe3 env.probe4 with
      | .error e => .error e
      | .ok none =>
          .ok (false, st, probeCount env.probe1 env.probe2 env.probe3 env.probe4, 0)
      | .ok (some (w, h)) =>
          if w ≤ 0 ∨ h ≤ 0 then
            .ok (false, st, probeCount env.probe1 env.probe2 env.probe3 env.probe4, 0)
          else
            let is_video := VIDEO_EXTS.contains (String.mk (ext.data.map Char.toLower))
            let r1 := do_thumb force is_video w.toNat h.toNat st env.encodeOk "SM" "sm"
            let r2 := do_thumb force is_video w.toNat h.toNat r1.2.1 env.encodeOk "M" "m"
            let r3 := do_thumb force is_video w.toNat h.toNat r2.2.1 env.encodeOk "XL" "xl"
            .ok (true, r3.2.1,
              probeCount env.probe1 env.probe2 env.probe3 env.probe4,
              r1.2.2 + r2.2.2 + r3.2.2) := by
  unfold process_file
  dsimp only
  rw [hnot, hfast]
  simp only [Bool.false_eq_true, if_false]

/-- The uncaught-exception path of process_file is reachable: a photo file
with no artifacts yet, whose identify and heif-info tools are missing and
whose ffprobe completes with exit code 0 and empty stdout, makes
process_file propagate the resolver's IndexError instead of returning a
boolean. -/
lemma process_file_error_reachable :
    process_file ".jpg" false false
      ⟨false, false, false, false, false, false⟩
      ⟨.fileNotFound, .fileNotFound, .completed 0 "" "", .fileNotFound,
        fun _ _ => false⟩ = .error .indexError := rfl

/-! ## Claim theorems -/

/-- C1: for every positive width and height, the six rule variants hold:
photo SM constrains the longest edge to 320, photo M the shortest edge to
320, photo XL the shortest edge to 1280, video SM the longest edge to 427,
video M the longest edge to 640, and video XL returns the source size; in
each variant a constrained edge already at or below its threshold leaves the
size unchanged, and otherwise the constrained edge equals the threshold and
the other edge is the proportionally scaled value rounded to a nearest
integer with a floor of 1. -/
theorem sizePolicy_six_rules (w h : ℕ) (hw : 0 < w) (hh : 0 < h) :
    RuleSpec true SIZE_SM_LONG w h (scale_args w h "sm") ∧
    RuleSpec false SIZE_M_SHORT w h (scale_args w h "m") ∧
    RuleSpec false SIZE_XL_SHORT w h (scale_args w h "xl") ∧
    RuleSpec true SIZE_VIDEO_SM_LONG w h (scale_args_video w h "sm") ∧
    RuleSpec true 640 w h (scale_args_video w h "m") ∧
    scale_args_video w h "xl" = (w, h) := by
  refine ⟨?_, ?_, ?_, ?_, ?_, ?_⟩
  · rw [scale_args_sm]; exact longConstr_rule SIZE_SM_LONG w h
  · rw [scale_args_m]; exact shortConstr_rule SIZE_M_SHORT w h
  · rw [scale_args_other w h (by decide) (by decide)]
    exact shortConstr_rule SIZE_XL_SHORT w h
  · rw [scale_args_video_sm]; exact longConstr_rule SIZE_VIDEO_SM_LONG w h
  · rw [scale_args_video_m]; exact longConstr_rule 640 w h
  · exact scale_args_video_other w h (by decide) (by decide)

/-- Witness for C1 at the spec's photo scenario 4000 x 3000. -/
theorem sizePolicy_six_rules_witness :
    RuleSpec true SIZE_SM_LONG 4000 3000 (scale_args 4000 3000 "sm") ∧
    RuleSpec false SIZE_M_SHORT 4000 3000 (scale_args 4000 3000 "m") ∧
    RuleSpec false SIZE_XL_SHORT 4000 3000 (scale_args 4000 3000 "xl") ∧
    RuleSpec true SIZE_VIDEO_SM_LONG 4000 3000 (scale_args_video 4000 3000 "sm") ∧
    RuleSpec true 640 4000 3000 (scale_args_video 4000 3000 "m") ∧
    scale_args_video 4000 3000 "xl" = (4000, 3000) :=
  sizePolicy_six_rules 4000 3000 (by decide) (by decide)

/-- C3: for all positive sizes, every size class and both media kinds, the
size policy is idempotent: applied to its own output it returns that output
unchanged. -/
theorem sizePolicy_idempotent (w h : ℕ) (s : String) (hw : 0 < w) (hh : 0 < h) :
    scale_args (scale_args w h s).1 (scale_args w h s).2 s = scale_args w h s ∧
    scale_args_video (scale_args_video w h s).1 (scale_args_video w h s).2 s =
      scale_args_video w h s := by
  constructor
  · by_cases h1 : s = "sm"
    · subst h1
      rw [scale_args_sm w h, scale_args_sm]
      exact longConstr_idem SIZE_SM_LONG w h hw hh (by decide)
    · by_cases h2 : s = "m"
      · subst h2
        rw [scale_args_m w h, scale_args_m]
        exact shortConstr_idem SIZE_M_SHORT w h hw hh
      · rw [scale_args_other w h h1 h2, scale_args_other _ _ h1 h2]
        exact shortConstr_idem SIZE_XL_SHORT w h hw hh
  · by_cases h1 : s = "sm"
    · subst h1
      rw [scale_args_video_sm w h, scale_args_video_sm]
      exact longConstr_idem SIZE_VIDEO_SM_LONG w h hw hh (by decide)
    · by_cases h2 : s = "m"
      · subst h2
        rw [scale_args_video_m w h, scale_args_video_m]
        exact longConstr_idem 640 w h hw hh (by decide)
      · rw [scale_args_video_other w h h1 h2, scale_args_video_other _ _ h1 h2]

/-- Witness for C3 at 1920 x 1080. -/
theorem sizePolicy_idempotent_witness :
    scale_args (scale_args 1920 1080 "sm").1 (scale_args 1920 1080 "sm").2 "sm" =
      scale_args 1920 1080 "sm" ∧
    scale_args_video (scale_args_video 1920 1080 "sm").1
      (scale_args_video 1920 1080 "sm").2 "sm" = scale_args_video 1920 1080 "sm" :=
  sizePolicy_idempotent 1920 1080 "sm" (by decide) (by decide)

/-- C10: for all positive sizes, every size class and both media kinds, the
size policy never upscales: each returned edge is at most the source edge. -/
theorem sizePolicy_no_upscale (w h : ℕ) (s : String) (hw : 0 < w) (hh : 0 < h) :
    (scale_args w h s).1 ≤ w ∧ (scale_args w h s).2 ≤ h ∧
    (scale_args_video w h s).1 ≤ w ∧ (scale_args_video w h s).2 ≤ h := by
  refine ⟨?_, ?_, ?_, ?_⟩
  · by_cases h1 : s = "sm"
    · subst h1; rw [scale_args_sm]; exact (longConstr_le SIZE_SM_LONG w h hw hh).1
    · by_cases h2 : s = "m"
      · subst h2; rw [scale_args_m]; exact (shortConstr_le SIZE_M_SHORT w h hw hh).1
      · rw [scale_args_other w h h1 h2]
        exact (shortConstr_le SIZE_XL_SHORT w h hw hh).1
  · by_cases h1 : s = "sm"
    · subst h1; rw [scale_args_sm]; exact (longConstr_le SIZE_SM_LONG w h hw hh).2
    · by_cases h2 : s = "m"
      · subst h2; rw [scale_args_m]; exact (shortConstr_le SIZE_M_SHORT w h hw hh).2
      · rw [scale_args_other w h h1 h2]
        exact (shortConstr_le SIZE_XL_SHORT w h hw hh).2
  · by_cases h1 : s = "sm"
    · subst h1; rw [scale_args_video_sm]
      exact (longConstr_le SIZE_VIDEO_SM_LONG w h hw hh).1
    · by_cases h2 : s = "m"
      · subst h2; rw [scale_args_video_m]; exact (longConstr_le 640 w h hw hh).1
      · rw [scale_args_video_other w h h1 h2]
  · by_cases h1 : s = "sm"
    · subst h1; rw [scale_args_video_sm]
      exact (longConstr_le SIZE_VIDEO_SM_LONG w h hw hh).2
    · by_cases h2 : s = "m"
      · subst h2; rw [scale_args_video_m]; exact (longConstr_le 640 w h hw hh).2
      · rw [scale_args_video_other w h h1 h2]

/-- Witness for C10 at 4000 x 3000 in class m. -/
theorem sizePolicy_no_upscale_witness :
    (scale_args 4000 3000 "m").1 ≤ 4000 ∧ (scale_args 4000 3000 "m").2 ≤ 3000 ∧
    (scale_args_video 4000 3000 "m").1 ≤ 4000 ∧
    (scale_args_video 4000 3000 "m").2 ≤ 3000 :=
  sizePolicy_no_upscale 4000 3000 "m" (by decide) (by decide)

/-- C2 is false on the code and the code contradicts its own best-effort
design: when the ffprobe strategy's subprocess completes with exit code 0
and empty stdout, line 101 indexes splitlines()[0] of an empty string and
the resulting IndexError is not in the except tuple, so the resolver raises
instead of falling through to the fourth strategy.  Here the first two
strategies fail (tool missing), the third completes with exit code 0 and
empty output, and the resolver propagates IndexError. -/
theorem resolver_empty_ffprobe_output_raises :
    get_media_info_ffprobe .fileNotFound .fileNotFound (.completed 0 "" "")
      .fileNotFound = .error .indexError := rfl

/-- C8: the resolver consults the four strategies in source order and
returns the first strategy's dimensions; every strategy only ever yields
strictly positive dimensions (zero or negative values are rejected inside
the strategy, so they fall through as failures), hence so does the
resolver. -/
theorem resolver_order_and_positivity (r1 r2 r3 r4 : ProcResult) :
    (∀ w h : ℤ, get_media_info_ffprobe r1 r2 r3 r4 = .ok (some (w, h)) →
      0 < w ∧ 0 < h) ∧
    (∀ d, parseIdentify r1 = some d →
      get_media_info_ffprobe r1 r2 r3 r4 = .ok (some d)) ∧
    (parseIdentify r1 = none → ∀ d, parseHeif r2 = some d →
      get_media_info_ffprobe r1 r2 r3 r4 = .ok (some d)) ∧
    (parseIdentify r1 = none → parseHeif r2 = none →
      ∀ d, parseFfprobe r3 = .ok (some d) →
      get_media_info_ffprobe r1 r2 r3 r4 = .ok (some d)) ∧
    (parseIdentify r1 = none → parseHeif r2 = none → parseFfprobe r3 = .ok none →
      get_media_info_ffprobe r1 r2 r3 r4 = .ok (parseFfmpeg r4)) ∧
    (∀ r (w h : ℤ),
      (parseIdentify r = some (w, h) → 0 < w ∧ 0 < h) ∧
      (parseHeif r = some (w, h) → 0 < w ∧ 0 < h) ∧
      (parseFfprobe r = .ok (some (w, h)) → 0 < w ∧ 0 < h) ∧
      (parseFfmpeg r = some (w, h) → 0 < w ∧ 0 < h)) := by
  refine ⟨fun w h hp => get_media_info_pos hp, ?_, ?_, ?_, ?_, ?_⟩
  · intro d hd
    unfold get_media_info_ffprobe
    rw [hd]
  · intro h1 d hd
    unfold get_media_info_ffprobe
    rw [h1, hd]
  · intro h1 h2 d hd
    unfold get_media_info_ffprobe
    rw [h1, h2, hd]
  · intro h1 h2 h3
    unfold get_media_info_ffprobe
    rw [h1, h2, h3]
  · exact fun r w h =>
      ⟨parseIdentify_pos, parseHeif_pos, parseFfprobe_pos, parseFfmpeg_pos⟩

/-- Witness for C8: identify reports 320,240 and the resolver returns it. -/
theorem resolver_order_and_positivity_witness :
    get_media_info_ffprobe (.completed 0 "320,240" "") .timeout .timeout .timeout =
      .ok (some (320, 240)) :=
  (resolver_order_and_positivity (.completed 0 "320,240" "") .timeout .timeout
    .timeout).2.1 (320, 240) rfl

/-- C4: a sequence of recordings ending in success leaves the marker for
that subdirectory and class absent, one ending in failure leaves it present,
recording success does not fail when the marker is absent (unlink is called
with missing_ok), and recording failure is idempotent. -/
theorem marker_invariant (ops : List MOp) (st : MarkerStore) (d c : String) :
    runOps st (ops ++ [MOp.success d c]) (d, c) = false ∧
    runOps st (ops ++ [MOp.failure d c]) (d, c) = true ∧
    record_success st d c = .ok (applyOp st (.success d c)) ∧
    record_failure (record_failure st d c) d c = record_failure st d c := by
  refine ⟨?_, ?_, ?_, ?_⟩
  · rw [runOps, List.foldl_append]
    simp [applyOp]
  · rw [runOps, List.foldl_append]
    simp [applyOp, touchMarker]
  · unfold record_success unlinkMarker applyOp
    by_cases hc : st (d, c) = true
    · rw [if_pos hc]
    · rw [if_neg hc, if_pos rfl]
      have hst : st = fun x => if x = (d, c) then false else st x := by
        funext x
        by_cases hx : x = (d, c)
        · rw [if_pos hx, hx]
          exact (Bool.not_eq_true _).mp hc
        · rw [if_neg hx]
      exact congrArg Except.ok hst
  · funext x
    unfold record_failure touchMarker
    by_cases hx : x = (d, c) <;> simp [hx]

/-- C6: when the three size-class artifacts all exist and force is off,
process_file returns success with zero probing and zero encode
invocations and an unchanged subdirectory state. -/
theorem process_fastpath_no_invocations (ext : String) (dry_run : Bool)
    (st : SubState) (env : Env) (hSM : st.thumbSM = true) (hM : st.thumbM = true)
    (hXL : st.thumbXL = true) :
    process_file ext dry_run false st env = .ok (true, st, 0, 0) := by
  simp [process_file, hSM, hM, hXL]

/-- Witness for C6. -/
theorem process_fastpath_no_invocations_witness :
    process_file ".jpg" false false
      ⟨true, true, true, false, false, true⟩
      ⟨.fileNotFound, .fileNotFound, .fileNotFound, .fileNotFound, fun _ _ => false⟩ =
      .ok (true, ⟨true, true, true, false, false, true⟩, 0, 0) :=
  process_fastpath_no_invocations ".jpg" false
    ⟨true, true, true, false, false, true⟩
    ⟨.fileNotFound, .fileNotFound, .fileNotFound, .fileNotFound, fun _ _ => false⟩
    rfl rfl rfl

/-- C5: with dry-run off and the fast path not applying, for a photo or
video extension the boolean returned by process_file tracks dimension
resolution alone: a NotFound resolution yields failure, and a successful
resolution yields success for every possible encode behaviour, so per-size
encode failures never change the file-level result. -/
theorem process_result_reflects_resolution (ext : String) (force : Bool)
    (st : SubState) (env : Env)
    (hmedia : (PHOTO_EXTS.contains (String.mk (ext.data.map Char.toLower)) ||
      VIDEO_EXTS.contains (String.mk (ext.data.map Char.toLower))) = true)
    (hfast : (!force && (st.thumbSM && st.thumbM && st.thumbXL)) = false) :
    (get_media_info_ffprobe env.probe1 env.probe2 env.probe3 env.probe4 = .ok none →
      process_file ext false force st env =
        .ok (false, st, probeCount env.probe1 env.probe2 env.probe3 env.probe4, 0)) ∧
    (∀ w h : ℤ,
      get_media_info_ffprobe env.probe1 env.probe2 env.probe3 env.probe4 =
        .ok (some (w, h)) →
      ∃ st2 ec, process_file ext false force st env =
        .ok (true, st2, probeCount env.probe1 env.probe2 env.probe3 env.probe4, ec)) := by
  rw [process_file_run ext force st env (bor_true_band_not hmedia) hfast]
  constructor
  · intro hres
    rw [hres]
  · intro w h hres
    obtain ⟨hw, hh⟩ := get_media_info_pos hres
    have hneg : ¬(w ≤ 0 ∨ h ≤ 0) := by omega
    rw [hres]
    simp only [if_neg hneg]
    exact ⟨_, _, rfl⟩

/-- Witness for C5: all four probes fail, process_file reports failure. -/
theorem process_result_reflects_resolution_witness :
    process_file ".mp4" false false
      ⟨false, false, false, false, false, false⟩
      ⟨.fileNotFound, .fileNotFound, .timeout, .timeout, fun _ _ => true⟩ =
      .ok (false, ⟨false, false, false, false, false, false⟩, 4, 0) :=
  (process_result_reflects_resolution ".mp4" false
    ⟨false, false, false, false, false, false⟩
    ⟨.fileNotFound, .fileNotFound, .timeout, .timeout, fun _ _ => true⟩
    rfl rfl).1 rfl

/-- C7: when dimension resolution reports NotFound (and the fast path did
not apply), process_file returns failure with the per-size state untouched:
no marker is created, modified or removed and no artifact is written. -/
theorem resolution_failure_leaves_state (ext : String) (force : Bool)
    (st : SubState) (env : Env)
    (hmedia : (PHOTO_EXTS.contains (String.mk (ext.data.map Char.toLower)) ||
      VIDEO_EXTS.contains (String.mk (ext.data.map Char.toLower))) = true)
    (hfast : (!force && (st.thumbSM && st.thumbM && st.thumbXL)) = false)
    (hres : get_media_info_ffprobe env.probe1 env.probe2 env.probe3 env.probe4 =
      .ok none) :
    process_file ext false force st env =
      .ok (false, st, probeCount env.probe1 env.probe2 env.probe3 env.probe4, 0) := by
  rw [process_file_run ext force st env (bor_true_band_not hmedia) hfast, hres]

/-- Witness for C7: with force on, a photo file whose probes all fail. -/
theorem resolution_failure_leaves_state_witness :
    process_file ".png" false true
      ⟨true, false, false, true, false, false⟩
      ⟨.timeout, .timeout, .fileNotFound, .fileNotFound, fun _ _ => true⟩ =
      .ok (false, ⟨true, false, false, true, false, false⟩, 4, 0) :=
  resolution_failure_leaves_state ".png" true
    ⟨true, false, false, true, false, false⟩
    ⟨.timeout, .timeout, .fileNotFound, .fileNotFound, fun _ _ => true⟩
    rfl rfl rfl

/-- C9 as stated is false at two concrete inputs with a usable toolchain
located (toolchainOk true): an argument path that is not a directory makes
main return the non-zero status 1, and a per-file run whose process call
raises the reachable resolver IndexError aborts the run non-zero even with
a valid directory.  Non-zero exits are therefore not restricted to the
missing-toolchain condition, and a per-file hard failure does change the
exit status. -/
theorem main_nonzero_for_invalid_directory :
    mainExit false true [] = 1 ∧
    mainExit true true [Except.error PyErr.indexError] = 1 :=
  ⟨rfl, rfl⟩

lemma mainLoop_eq_zero_iff (rs : List (Except PyErr Bool)) :
    mainLoop rs = 0 ↔ ∀ e : PyErr, Except.error e ∉ rs := by
  induction rs with
  | nil => simp [mainLoop]
  | cons r rest ih =>
      cases r with
      | error e =>
          simp only [mainLoop, List.mem_cons]
          constructor
          · intro h
            exact absurd h one_ne_zero
          · intro h
            exact absurd (Or.inl rfl) (h e)
      | ok b => simp [mainLoop, ih]

/-- C9 amended: the run exits non-zero exactly when the argument path is
not a directory, no usable toolchain can be located at startup, or some
per-file process call raised an uncaught exception (which aborts the run);
per-file boolean failure results never change the exit status. -/
theorem mainExit_characterization (dirIsDir toolchainOk : Bool)
    (fileResults : List (Except PyErr Bool)) :
    (mainExit dirIsDir toolchainOk fileResults = 0 ↔
      dirIsDir = true ∧ toolchainOk = true ∧
        ∀ e : PyErr, Except.error e ∉ fileResults) ∧
    (∀ bs bs' : List Bool,
      mainExit dirIsDir toolchainOk (bs.map Except.ok) =
        mainExit dirIsDir toolchainOk (bs'.map Except.ok)) := by
  have hall : ∀ bs : List Bool, mainLoop (bs.map Except.ok) = 0 := by
    intro bs
    induction bs with
    | nil => rfl
    | cons b rest ih => simpa [mainLoop] using ih
  constructor
  · cases dirIsDir <;> cases toolchainOk <;>
      simp [mainExit, mainLoop_eq_zero_iff]
  · intro bs bs'
    cases dirIsDir <;> cases toolchainOk <;> simp [mainExit, hall]

end SynoThumbs
